import Mathlib

/-!
Verification of the CareFlow workflow automation engine specification.

The repository's `api/services/workflow_engine.py` module is referenced by
`api/views.py` (`emit_domain_event`, `process_pending_domain_events`) but its
source is not part of the checked tree; only its data model (`api/models.py`),
its call sites (`api/views.py`) and its tests (`api/tests.py`) are.  The
engine-internal definitions below are therefore modelled from the spec, as
marked in their doc comments; everything about the call sites themselves
(payload construction, the check-in alert heuristic) is translated directly
from `api/views.py`.
-/

namespace CareFlow

/-- JSON-like scalar values: the payloads of this repository are flat maps of
string keys to scalars or lists of scalars (`payload = models.JSONField`). -/
inductive Scalar where
  | str (s : String)
  | int (n : Int)
  | bool (b : Bool)
  | null
deriving Repr, DecidableEq

/-- A JSON-like value: a scalar or a flat list of scalars (the spec's
"scalar/list JSON-like values", §3). -/
inductive Value where
  | scalar (s : Scalar)
  | list (l : List Scalar)
deriving Repr, DecidableEq

/-- A plain string value. -/
def Value.str (s : String) : Value := .scalar (.str s)

/-- A plain integer value. -/
def Value.int (n : Int) : Value := .scalar (.int n)

/-- A plain boolean value. -/
def Value.bool (b : Bool) : Value := .scalar (.bool b)

/-- The JSON null value. -/
def Value.null : Value := .scalar .null

/-- A flat payload map: string keys to JSON-like values. -/
abbrev Payload := List (String × Value)

/-- Look a field up in a payload map (first binding wins). -/
def lookupField (p : Payload) (f : String) : Option Value :=
  (p.find? (fun kv => kv.1 == f)).map Prod.snd

/-- Python truthiness of a JSON-like value (used by the `exists` clause,
whose spec reads `(field present in payload) == bool(value)`). -/
def Value.truthy : Value → Bool
  | .scalar (.str s) => s != ""
  | .scalar (.int n) => n != 0
  | .scalar (.bool b) => b
  | .scalar .null => false
  | .list l => !l.isEmpty

/-- Numeric view of a value: only integer values are numeric operands for the
comparison clauses (`gte/lte/gt/lt`). -/
def Value.asNum : Value → Option Int
  | .scalar (.int n) => some n
  | _ => none

/-- Clause operators of the condition grammar:
`op ∈ {exists, eq, ne, in, gte, lte, gt, lt}`. -/
inductive Op where
  | opExists
  | opEq
  | opNe
  | opIn
  | opGte
  | opLte
  | opGt
  | opLt
deriving Repr, DecidableEq

/-- Condition Tree: a combinator node `{kind: all|any, children: [Node]}` or a
clause leaf `{field, op, value}`. -/
inductive Cond where
  | all (children : List Cond)
  | any (children : List Cond)
  | clause (field : String) (op : Op) (value : Value)
deriving Repr

/-- Modelled from the spec: clause evaluation of the Condition Evaluator
(§4.1), whose source module is not in the tree.
`exists`: `(field present in payload) == bool(value)`;
`eq`/`ne`: strict (in)equality, absent field evaluates both to false (the
spec's recommended documented choice);
`in`: `value` must be a list, membership of `payload[field]`, absent ⇒ false;
`gte/lte/gt/lt`: numeric comparison, absent field or non-numeric ⇒ false. -/
def evalClause (f : String) (op : Op) (v : Value) (p : Payload) : Bool :=
  match op with
  | .opExists => (lookupField p f).isSome == v.truthy
  | .opEq =>
      match lookupField p f with
      | some w => w == v
      | none => false
  | .opNe =>
      match lookupField p f with
      | some w => w != v
      | none => false
  | .opIn =>
      match lookupField p f, v with
      | some (.scalar w), .list l => l.contains w
      | _, _ => false
  | .opGte =>
      match (lookupField p f).bind Value.asNum, v.asNum with
      | some a, some b => a ≥ b
      | _, _ => false
  | .opLte =>
      match (lookupField p f).bind Value.asNum, v.asNum with
      | some a, some b => a ≤ b
      | _, _ => false
  | .opGt =>
      match (lookupField p f).bind Value.asNum, v.asNum with
      | some a, some b => a > b
      | _, _ => false
  | .opLt =>
      match (lookupField p f).bind Value.asNum, v.asNum with
      | some a, some b => a < b
      | _, _ => false

mutual

/-- Modelled from the spec: `evaluate(node, payload) -> bool` of the Condition
Evaluator (§4.1).  Combinator `all` is true iff every child is true (empty ⇒
true); `any` is true iff at least one child is true (empty ⇒ false). -/
def evaluate : Cond → Payload → Bool
  | .all cs, p => evalAllChildren cs p
  | .any cs, p => evalAnyChildren cs p
  | .clause f op v, p => evalClause f op v p

/-- Conjunction over the children of an `all` combinator. -/
def evalAllChildren : List Cond → Payload → Bool
  | [], _ => true
  | c :: rest, p => evaluate c p && evalAllChildren rest p

/-- Disjunction over the children of an `any` combinator. -/
def evalAnyChildren : List Cond → Payload → Bool
  | [], _ => false
  | c :: rest, p => evaluate c p || evalAnyChildren rest p

end

/-! ### Source-embedded call sites (`api/views.py`)

The definitions below are translated directly from `api/views.py`: the
check-in alert heuristic `_checkin_alert_payload` and the payload
dictionaries passed to `emit_domain_event` at each call site. -/

/-- A patient check-in (`api/models.py`, `PatientCheckIn`): severity and mood
are non-negative small integers, the three vital signs are nullable. -/
structure PatientCheckIn where
  id : Int
  patient_id : Int
  patient_age : Nat
  symptom_severity : Nat
  mood_score : Nat
  medication_taken : Bool
  systolic_bp : Option Nat
  oxygen_saturation : Option Nat
  heart_rate : Option Nat
deriving Repr, DecidableEq

/-- A nullable vital sign is strictly below a bound (a Python
`x is not None and x < bound` check). -/
def vitalBelow (v : Option Nat) (bound : Nat) : Bool :=
  match v with
  | some o => decide (o < bound)
  | none => false

/-- A nullable vital sign is at least a bound (a Python
`x is not None and x >= bound` check). -/
def vitalAtLeast (v : Option Nat) (bound : Nat) : Bool :=
  match v with
  | some o => decide (bound ≤ o)
  | none => false

/-- The urgent-signal list built by `_checkin_alert_payload`
(`api/views.py:160`), in source order. -/
def checkinSignals (c : PatientCheckIn) : List String :=
  (if 8 ≤ c.symptom_severity then ["severe symptoms"] else []) ++
  (if vitalBelow c.oxygen_saturation 92 then ["low oxygen saturation"] else []) ++
  (if vitalAtLeast c.systolic_bp 180 then ["critical blood pressure"] else []) ++
  (if vitalAtLeast c.heart_rate 130 then ["very high heart rate"] else []) ++
  (if c.mood_score ≤ 2 && !c.medication_taken
    then ["acute mental health/medication adherence concern"] else [])

/-- The alert content computed by `_checkin_alert_payload`. -/
structure AlertPayload where
  severity : String
  title : String
  message : String
deriving Repr, DecidableEq

/-- `_checkin_alert_payload(checkin)` (`api/views.py:160`): `None` when no
urgent signal fires, otherwise critical severity for two or more signals and
high severity for exactly one. -/
def checkin_alert_payload (c : PatientCheckIn) : Option AlertPayload :=
  let signals := checkinSignals c
  if signals.isEmpty then none
  else some
    { severity := if 2 ≤ signals.length then "critical" else "high"
      title := "Urgent remote monitoring check-in"
      message := "Patient reported " ++ String.intercalate ", " signals ++
        ". Escalate care outreach today." }

/-- The number of urgent signals a check-in raises, counted over the same
five conditions `_checkin_alert_payload` tests. -/
def urgentSignalCount (c : PatientCheckIn) : Nat :=
  (if 8 ≤ c.symptom_severity then 1 else 0) +
  (if vitalBelow c.oxygen_saturation 92 then 1 else 0) +
  (if vitalAtLeast c.systolic_bp 180 then 1 else 0) +
  (if vitalAtLeast c.heart_rate 130 then 1 else 0) +
  (if c.mood_score ≤ 2 && !c.medication_taken then 1 else 0)

/-- Encode a nullable integer Django field into a JSON payload value. -/
def optIntValue : Option Int → Value
  | some n => Value.int n
  | none => Value.null

/-- Encode a nullable non-negative Django field into a JSON payload value. -/
def optNatValue : Option Nat → Value
  | some n => Value.int n
  | none => Value.null

/-- The `checkin.submitted` payload dictionary built by
`PatientCheckInViewSet.create` (`api/views.py:756`). -/
def checkinEmitPayload (c : PatientCheckIn) (alert_id : Option Int) : Payload :=
  [("checkin_id", Value.int c.id),
   ("patient_id", Value.int c.patient_id),
   ("patient_age", Value.int c.patient_age),
   ("symptom_severity", Value.int c.symptom_severity),
   ("mood_score", Value.int c.mood_score),
   ("medication_taken", Value.bool c.medication_taken),
   ("systolic_bp", optNatValue c.systolic_bp),
   ("oxygen_saturation", optNatValue c.oxygen_saturation),
   ("heart_rate", optNatValue c.heart_rate),
   ("auto_alert_id", optIntValue alert_id)]

/-- Result of the check-in creation endpoint: the possibly created clinical
alert, its id, and the emitted `checkin.submitted` payload. -/
structure CheckinCreateResult where
  alert : Option AlertPayload
  alert_id : Option Int
  payload : Payload
deriving Repr, DecidableEq

/-- `PatientCheckInViewSet.create` (`api/views.py:740`), the alert/emission
slice: create a `ClinicalAlert` exactly when `_checkin_alert_payload` returns
one, and thread its id into the emitted payload as `auto_alert_id`. -/
def checkinCreate (c : PatientCheckIn) (newAlertId : Int) : CheckinCreateResult :=
  match checkin_alert_payload c with
  | some ap =>
      { alert := some ap, alert_id := some newAlertId
        payload := checkinEmitPayload c (some newAlertId) }
  | none =>
      { alert := none, alert_id := none
        payload := checkinEmitPayload c none }

/-- A risk assessment as used by the `triage.assessed` emission
(`api/views.py:1019`); `patient_id` is nullable. -/
structure TriageAssessment where
  id : Int
  patient_id : Option Int
  age : Nat
  risk_score : Int
  risk_level : String
  recommended_action : String
deriving Repr, DecidableEq

/-- The `triage.assessed` payload dictionary built by
`TriageAssessmentView.post` (`api/views.py:1019`). -/
def triageEmitPayload (a : TriageAssessment) (alert_id : Option Int) : Payload :=
  [("assessment_id", Value.int a.id),
   ("patient_id", optIntValue a.patient_id),
   ("age", Value.int a.age),
   ("risk_score", Value.int a.risk_score),
   ("risk_level", Value.str a.risk_level),
   ("recommended_action", Value.str a.recommended_action),
   ("alert_id", optIntValue alert_id)]

/-- A lab order as used by the `lab_order.completed` emission
(`api/views.py:698`). -/
structure LabOrder where
  id : Int
  patient_id : Int
  patient_age : Nat
  priority : String
  result_value : String
  result_summary : String
  status : String
deriving Repr, DecidableEq

/-- The `lab_order.completed` payload dictionary built by
`LabOrderViewSet.complete` (`api/views.py:698`). -/
def labOrderEmitPayload (o : LabOrder) : Payload :=
  [("lab_order_id", Value.int o.id),
   ("patient_id", Value.int o.patient_id),
   ("patient_age", Value.int o.patient_age),
   ("priority", Value.str o.priority),
   ("result_value", Value.str o.result_value),
   ("result_summary", Value.str o.result_summary),
   ("status", Value.str o.status)]

/-- The `admission.created` payload dictionary built by
`AdmissionViewSet.perform_create` (`api/views.py:476`); `bed` carries the bed
id and its ward code when a bed was assigned. -/
def admissionCreatedEmitPayload (admission_id patient_id : Int) (patient_age : Nat)
    (bed : Option (Int × String)) (reason status : String) : Payload :=
  [("admission_id", Value.int admission_id),
   ("patient_id", Value.int patient_id),
   ("patient_age", Value.int patient_age),
   ("bed_id", optIntValue (bed.map Prod.fst)),
   ("ward_code", Value.str (match bed with | some b => b.2 | none => "")),
   ("reason", Value.str reason),
   ("status", Value.str status)]

/-- The `admission.transferred` payload dictionary built by
`AdmissionViewSet.transfer` (`api/views.py:538`). -/
def admissionTransferredEmitPayload (admission_id patient_id : Int) (patient_age : Nat)
    (from_bed_id : Option Int) (to_bed_id : Int) (to_ward_code reason : String) : Payload :=
  [("admission_id", Value.int admission_id),
   ("patient_id", Value.int patient_id),
   ("patient_age", Value.int patient_age),
   ("from_bed_id", optIntValue from_bed_id),
   ("to_bed_id", Value.int to_bed_id),
   ("to_ward_code", Value.str to_ward_code),
   ("reason", Value.str reason)]

/-- The `admission.discharged` payload dictionary built by
`AdmissionViewSet.discharge` (`api/views.py:574`). -/
def admissionDischargedEmitPayload (admission_id patient_id : Int) (patient_age : Nat)
    (bed_id : Option Int) (summary status : String) : Payload :=
  [("admission_id", Value.int admission_id),
   ("patient_id", Value.int patient_id),
   ("patient_age", Value.int patient_age),
   ("bed_id", optIntValue bed_id),
   ("summary", Value.str summary),
   ("status", Value.str status)]

/-! ### The workflow automation engine (modelled from the spec)

`api/services/workflow_engine.py` — the module exporting `emit_domain_event`
and `process_pending_domain_events` — is not part of the checked tree, so the
engine is modelled from the spec (§3–§4.5, §7), with the loosely specified
points resolved the way the spec itself recommends (§3 eq/ne on an absent
field, §9 independent rule execution with the event failing if any rule
dispatch errors). -/

/-- `DomainEvent.status` (`api/models.py:410`): pending, processed or failed. -/
inductive EventStatus where
  | pending
  | processed
  | failed
deriving Repr, DecidableEq

/-- A stored `DomainEvent` (`api/models.py:409`): payload immutable once
created, `attempts` counts processing tries, timestamps are abstract ticks. -/
structure DomainEvent where
  id : Nat
  event_type : String
  source : String
  payload : Payload
  status : EventStatus
  attempts : Nat
  error_message : String
  occurred_at : Nat
  processed_at : Option Nat
deriving Repr, DecidableEq

/-- `WorkflowRule.action_type` (`api/models.py:440`). -/
inductive ActionType where
  | create_alert
  | create_appointment
  | create_referral
deriving Repr, DecidableEq

/-- One piece of an `action_config` template string: a literal run or a
`{field}` placeholder referencing a payload key. -/
inductive Tmpl where
  | lit (s : String)
  | hole (field : String)
deriving Repr, DecidableEq

/-- Modelled from the spec: the parsed form of an `action_config` template
string (§4.2 Templating) — literal runs interleaved with placeholders. -/
abbrev Template := List Tmpl

/-- Modelled from the spec: the `action_config` parameters of the three action
kinds (§4.2), parsed once into a fixed shape (§9).  String fields that the
spec renders are templates; `severity`, `clinician_name`, `resource_category`
and the referral `status` (default `recommended`) are literals. -/
structure ActionConfig where
  severity : String := ""
  title : Template := []
  message : Template := []
  clinician_name : String := ""
  scheduled_in_hours : Int := 0
  reason : Template := []
  resource_category : String := ""
  status : String := "recommended"
deriving Repr, DecidableEq

/-- A `WorkflowRule` (`api/models.py:439`): unique name, event type, condition
tree, action, priority (lower fires earlier) and active flag. -/
structure WorkflowRule where
  name : String
  event_type : String
  condition : Cond
  action_type : ActionType
  action_config : ActionConfig
  priority : Nat
  active : Bool

/-- A community resource (`api/models.py`, `CommunityResource`): referral
targets selected by category, name-ordered. -/
structure Resource where
  name : String
  category : String
  active : Bool
deriving Repr, DecidableEq

/-- A clinical alert side effect (`api/models.py:91`). -/
structure ClinicalAlert where
  patient : Int
  severity : String
  title : String
  message : String
deriving Repr, DecidableEq

/-- An appointment side effect; initial status is `scheduled` (§4.2). -/
structure Appointment where
  patient : Int
  clinician_name : String
  scheduled_at : Int
  reason : String
  status : String
deriving Repr, DecidableEq

/-- A resource referral side effect, keyed by (subject, resource) (§4.2). -/
structure Referral where
  patient : Int
  resource : String
  reason : String
  status : String
deriving Repr, DecidableEq

/-- Modelled from the spec: the engine's runtime-resolvable failures (§7
DispatchError): unknown subject, missing template key, no eligible resource. -/
inductive DispatchError where
  | unknownSubject
  | missingTemplateKey (field : String)
  | noEligibleResource
deriving Repr, DecidableEq

/-- The non-empty error detail recorded for a dispatch failure. -/
def DispatchError.message : DispatchError → String
  | .unknownSubject => "unknown subject"
  | .missingTemplateKey f => "missing template key " ++ f
  | .noEligibleResource => "no eligible resource"

/-- Python string form of a scalar substituted into a template. -/
def Scalar.render : Scalar → String
  | .str s => s
  | .int n => toString n
  | .bool b => if b then "True" else "False"
  | .null => "None"

/-- Python string form of a payload value substituted into a template. -/
def Value.render : Value → String
  | .scalar s => s.render
  | .list l => String.intercalate ", " (l.map Scalar.render)

/-- Modelled from the spec: template rendering (§4.2) — substitute literal
payload values for placeholders; an unknown placeholder is a `DispatchError`,
never silently blanked, so no partially rendered string is ever produced. -/
def renderTemplate (t : Template) (p : Payload) : Except DispatchError String :=
  match t with
  | [] => .ok ""
  | .lit s :: rest => (renderTemplate rest p).map (fun r => s ++ r)
  | .hole f :: rest =>
      match lookupField p f with
      | some v => (renderTemplate rest p).map (fun r => v.render ++ r)
      | none => .error (.missingTemplateKey f)

/-- One side effect produced by a successful dispatch. -/
inductive Effect where
  | alert (a : ClinicalAlert)
  | appointment (a : Appointment)
  | referral (r : Referral)
deriving Repr, DecidableEq

/-- The engine-visible persistent state: patients (ids), resources, the rule
store, the event store, the three side-effect tables and a clock/id source. -/
structure Store where
  patients : List Int
  resources : List Resource
  rules : List WorkflowRule
  events : List DomainEvent
  alerts : List ClinicalAlert
  appointments : List Appointment
  referrals : List Referral
  nextId : Nat
  now : Nat

/-- Modelled from the spec: subject resolution (§4.2) — the subject is
`payload["patient_id"]`, looked up against the patient table; absence or
lookup failure is a `DispatchError`, not a crash. -/
def resolveSubject (p : Payload) (patients : List Int) : Except DispatchError Int :=
  match lookupField p "patient_id" with
  | some (.scalar (.int n)) =>
      if patients.contains n then .ok n else .error .unknownSubject
  | _ => .error .unknownSubject

/-- Deterministic rule order (§4.3): priority ascending, name ascending. -/
def ruleLE (a b : WorkflowRule) : Bool :=
  decide (a.priority < b.priority) ||
    (decide (a.priority = b.priority) && decide (a.name ≤ b.name))

/-- Modelled from the spec: the Rule Registry (§4.3) —
`lookup(event_type)` returns the active rules matching the event type,
ordered by (priority ascending, name ascending). -/
def lookupRules (rules : List WorkflowRule) (et : String) : List WorkflowRule :=
  (rules.filter (fun r => r.active && r.event_type == et)).mergeSort ruleLE

/-- Name order on resources for the referral tie-break (§4.2). -/
def resourceNameLE (a b : Resource) : Bool :=
  decide (a.name ≤ b.name)

/-- Modelled from the spec: referral target selection (§4.2) — the first
active resource of the configured category, ordered by name. -/
def firstEligibleResource (resources : List Resource) (cat : String) : Option Resource :=
  ((resources.filter (fun r => r.active && r.category == cat)).mergeSort resourceNameLE).head?

/-- Modelled from the spec: `dispatch(rule, payload, actor)` (§4.2) — resolve
the subject, then build the action's side effect, rendering the configured
templates; every runtime failure is a returned `DispatchError`. -/
def dispatch (rule : WorkflowRule) (p : Payload) (st : Store) : Except DispatchError Effect :=
  match resolveSubject p st.patients with
  | .error e => .error e
  | .ok subject =>
      match rule.action_type with
      | .create_alert =>
          match renderTemplate rule.action_config.title p with
          | .error e => .error e
          | .ok title =>
              match renderTemplate rule.action_config.message p with
              | .error e => .error e
              | .ok msg =>
                  .ok (.alert { patient := subject, severity := rule.action_config.severity,
                                title := title, message := msg })
      | .create_appointment =>
          match renderTemplate rule.action_config.reason p with
          | .error e => .error e
          | .ok reason =>
              .ok (.appointment { patient := subject,
                                  clinician_name := rule.action_config.clinician_name,
                                  scheduled_at := (st.now : Int) + rule.action_config.scheduled_in_hours,
                                  reason := reason, status := "scheduled" })
      | .create_referral =>
          match firstEligibleResource st.resources rule.action_config.resource_category with
          | none => .error .noEligibleResource
          | some res =>
              match renderTemplate rule.action_config.reason p with
              | .error e => .error e
              | .ok reason =>
                  .ok (.referral { patient := subject, resource := res.name,
                                   reason := reason, status := rule.action_config.status })

/-- Persist one side effect; referral creation is an upsert keyed by
(subject, resource) (§4.2), so retries do not duplicate referrals. -/
def applyEffect (st : Store) : Effect → Store
  | .alert a => { st with alerts := st.alerts ++ [a] }
  | .appointment a => { st with appointments := st.appointments ++ [a] }
  | .referral r =>
      if st.referrals.any (fun x => x.patient == r.patient && x.resource == r.resource) then
        let upd := st.referrals.map
          (fun x => if x.patient == r.patient && x.resource == r.resource then r else x)
        { st with referrals := upd }
      else
        { st with referrals := st.referrals ++ [r] }

/-- The rules that fire for an event on one processing attempt: the fresh
registry lookup filtered by condition evaluation over the payload (§4.4). -/
def firedRules (rules : List WorkflowRule) (ev : DomainEvent) : List WorkflowRule :=
  (lookupRules rules ev.event_type).filter (fun r => evaluate r.condition ev.payload)

/-- Modelled from the spec: run every fired rule independently (§9's adopted
default), persisting each successful side effect and collecting each failed
rule's error message; one rule's failure never blocks the remaining rules. -/
def runRules (st : Store) (p : Payload) : List WorkflowRule → Store × List String
  | [] => (st, [])
  | r :: rest =>
      match dispatch r p st with
      | .ok eff => runRules (applyEffect st eff) p rest
      | .error e =>
          let (st', errs) := runRules st p rest
          (st', e.message :: errs)

/-- Write the outcome of one processing attempt back onto the event: success
sets `processed`/`processed_at` and clears the error, failure sets `failed`
with the error detail; either way `attempts` grows by one (§4.5). -/
def finalizeEvent (ev : DomainEvent) (now : Nat) : Option String → DomainEvent
  | none =>
      { ev with status := .processed, attempts := ev.attempts + 1,
                error_message := "", processed_at := some now }
  | some msg =>
      { ev with status := .failed, attempts := ev.attempts + 1,
                error_message := msg, processed_at := none }

/-- The error messages collected over one processing attempt on one event. -/
def attemptErrors (st : Store) (ev : DomainEvent) : List String :=
  (runRules st ev.payload (firedRules st.rules ev)).2

/-- The outcome of one processing attempt: `none` when every fired rule
dispatched successfully, otherwise the first collected error detail (§9's
adopted default: the event fails if any rule dispatch errors). -/
def attemptResult (st : Store) (ev : DomainEvent) : Option String :=
  (attemptErrors st ev).head?

/-- Modelled from the spec: one processing attempt on one stored event (§4.4's
inner step): fresh rule lookup, per-rule evaluation and dispatch, then persist
the event's new status — `failed` iff some fired rule's dispatch errored. -/
def processOne (st : Store) (evId : Nat) : Store :=
  match st.events.find? (fun e => e.id == evId) with
  | none => st
  | some ev =>
      let st' := (runRules st ev.payload (firedRules st.rules ev)).1
      let updated := st'.events.map
        (fun e => if e.id == evId then finalizeEvent ev st.now (attemptResult st ev) else e)
      { st' with events := updated }

/-- A freshly recorded domain event: status pending, zero attempts, no error,
no processing timestamp (§3). -/
def mkEvent (id : Nat) (et src : String) (p : Payload) (now : Nat) : DomainEvent :=
  { id := id, event_type := et, source := src, payload := p,
    status := .pending, attempts := 0, error_message := "",
    occurred_at := now, processed_at := none }

/-- Modelled from the spec: the Emission Gateway (§4.4), the engine side of
`emit_domain_event` — persist a new pending event, then perform exactly one
synchronous processing attempt and persist the result. -/
def emit (st : Store) (et src : String) (p : Payload) : Store :=
  let ev := mkEvent st.nextId et src p st.now
  processOne { st with events := st.events ++ [ev], nextId := st.nextId + 1 } ev.id

/-- Modelled from the spec: Recovery Sweep candidate predicate (§4.5) —
`status=pending`, plus (if `include_failed`) `status=failed` with
`attempts < max_attempts`. -/
def isCandidate (include_failed : Bool) (max_attempts : Nat) (e : DomainEvent) : Bool :=
  e.status == .pending ||
    (include_failed && e.status == .failed && decide (e.attempts < max_attempts))

/-- Oldest-occurred-first order for sweep candidates. -/
def occurredLE (a b : DomainEvent) : Bool :=
  decide (a.occurred_at ≤ b.occurred_at)

/-- Modelled from the spec: Recovery Sweep candidate selection (§4.5) —
candidates ordered oldest-occurred-first, capped at `limit`. -/
def selectCandidates (st : Store) (limit : Nat) (include_failed : Bool)
    (max_attempts : Nat) : List DomainEvent :=
  ((st.events.filter (isCandidate include_failed max_attempts)).mergeSort occurredLE).take limit

/-- Process a list of event ids in order, each one independently, recording
each event's final status (§4.5). -/
def processList (st : Store) : List Nat → Store × List (Nat × EventStatus)
  | [] => (st, [])
  | i :: rest =>
      let st1 := processOne st i
      let outcome := (((st1.events.find? (fun e => e.id == i)).map
        DomainEvent.status).getD .pending)
      ((processList st1 rest).1, (i, outcome) :: (processList st1 rest).2)

/-- Modelled from the spec: `process_pending(limit, include_failed,
max_attempts)` (§4.5), the engine side of `process_pending_domain_events` —
select candidates, process each independently, and report
`processed_count`/`failed_count` and per-event results. -/
def process_pending (st : Store) (limit : Nat) (include_failed : Bool)
    (max_attempts : Nat) : Store × Nat × Nat × List (Nat × EventStatus) :=
  let cands := selectCandidates st limit include_failed max_attempts
  let pr := processList st (cands.map DomainEvent.id)
  (pr.1, (pr.2.filter (fun r => r.2 == .processed)).length,
    (pr.2.filter (fun r => r.2 == .failed)).length, pr.2)

/-- The templates of an `action_config` that the action kind renders (§4.2):
`title`/`message` for alerts, `reason` for appointments and referrals. -/
def configTemplates : ActionType → ActionConfig → List Template
  | .create_alert, cfg => [cfg.title, cfg.message]
  | .create_appointment, cfg => [cfg.reason]
  | .create_referral, cfg => [cfg.reason]

/-- The spec's per-event invariant (§3): `error_message` non-empty iff the
event is failed, `processed_at` set iff the event is processed. -/
def eventWF (e : DomainEvent) : Prop :=
  (e.error_message ≠ "" ↔ e.status = .failed) ∧
  (e.processed_at.isSome = true ↔ e.status = .processed)

instance (e : DomainEvent) : Decidable (eventWF e) := by
  unfold eventWF
  infer_instance

/-- A concrete inactive rule, used only to instantiate registry theorems. -/
def wInactiveRule : WorkflowRule :=
  { name := "inactive sample", event_type := "triage.assessed",
    condition := Cond.all [], action_type := .create_alert,
    action_config := {}, priority := 5, active := false }

/-- A concrete rule whose alert message references a key the sample payload
lacks, used only to instantiate dispatch-failure theorems. -/
def wBadRule : WorkflowRule :=
  { name := "bad template sample", event_type := "checkin.submitted",
    condition := Cond.all [], action_type := .create_alert,
    action_config := { severity := "high", title := [Tmpl.lit "t"],
                       message := [Tmpl.hole "absent_key"] },
    priority := 7, active := true }

/-- A concrete pending event, used only to instantiate engine theorems. -/
def wEvent : DomainEvent :=
  mkEvent 4 "checkin.submitted" "test" [("patient_id", Value.int 1)] 3

/-- A concrete store holding one patient, one rule and one pending event,
used only to instantiate engine theorems. -/
def wStore : Store :=
  { patients := [1], resources := [], rules := [wBadRule], events := [wEvent],
    alerts := [], appointments := [], referrals := [], nextId := 5, now := 9 }

/-- A concrete high-risk follow-up rule mirroring the seeded demo rule, used
only to instantiate the emission theorem. -/
def wFollowupRule : WorkflowRule :=
  { name := "auto followup", event_type := "triage.assessed",
    condition := Cond.all [Cond.clause "risk_level" Op.opIn
      (Value.list [Scalar.str "High", Scalar.str "Critical"])],
    action_type := .create_appointment,
    action_config := { clinician_name := "Auto Team", scheduled_in_hours := 24,
                       reason := [Tmpl.lit "Follow-up for ",
                                  Tmpl.hole "risk_level", Tmpl.lit " risk"] },
    priority := 5, active := true }

/-- A concrete store holding one patient and the follow-up rule, used only to
instantiate the emission theorem. -/
def wTriageStore : Store :=
  { patients := [2], resources := [], rules := [wFollowupRule], events := [],
    alerts := [], appointments := [], referrals := [], nextId := 0, now := 100 }

/-- Modelled from the spec: the §6 contract table row for `triage.assessed`. -/
def specTriageFields : List String :=
  ["assessment_id", "patient_id", "age", "risk_score", "risk_level",
   "recommended_action", "alert_id"]

/-- Modelled from the spec: the §6 contract table row for `checkin.submitted`. -/
def specCheckinFields : List String :=
  ["checkin_id", "patient_id", "patient_age", "symptom_severity", "mood_score",
   "medication_taken", "systolic_bp", "oxygen_saturation", "heart_rate",
   "auto_alert_id"]

/-- Modelled from the spec: the §6 contract table row for `lab_order.completed`. -/
def specLabOrderFields : List String :=
  ["lab_order_id", "patient_id", "patient_age", "priority", "result_value",
   "result_summary", "status"]

/-- Modelled from the spec: the §6 contract table row for the admission events,
read in the variant most favourable to `admission.discharged` (single `bed_id`,
`summary` rather than `reason`).  The row lists `ward_code` and `status` for
every admission event. -/
def specAdmissionDischargedFields : List String :=
  ["admission_id", "patient_id", "patient_age", "bed_id", "ward_code",
   "summary", "status"]

end CareFlow

namespace CareFlow

theorem evalAllChildren_eq_all (cs : List Cond) (p : Payload) :
    evalAllChildren cs p = cs.all (fun c => evaluate c p) := by
  induction cs with
  | nil => rfl
  | cons c rest ih => simp [evalAllChildren, List.all_cons, ih]

theorem evalAnyChildren_eq_any (cs : List Cond) (p : Payload) :
    evalAnyChildren cs p = cs.any (fun c => evaluate c p) := by
  induction cs with
  | nil => rfl
  | cons c rest ih => simp [evalAnyChildren, List.any_cons, ih]

/-- C4: for every payload, an `all` combinator evaluates to true iff every
child does (so an empty `all` is true), and an `any` combinator evaluates to
true iff at least one child does (so an empty `any` is false). -/
theorem evaluate_combinator_semantics (cs : List Cond) (p : Payload) :
    (evaluate (Cond.all cs) p = true ↔ ∀ c ∈ cs, evaluate c p = true) ∧
    (evaluate (Cond.any cs) p = true ↔ ∃ c ∈ cs, evaluate c p = true) ∧
    evaluate (Cond.all []) p = true ∧ evaluate (Cond.any []) p = false := by
  refine ⟨?_, ?_, rfl, rfl⟩
  · rw [show evaluate (Cond.all cs) p = evalAllChildren cs p from rfl,
      evalAllChildren_eq_all]
    exact List.all_eq_true
  · rw [show evaluate (Cond.any cs) p = evalAnyChildren cs p from rfl,
      evalAnyChildren_eq_any]
    exact List.any_eq_true

/-- C3: `evaluate` is a total boolean function (so it can never raise); a
clause over a field absent from the payload evaluates to false for every
operator other than `exists`, and the numeric comparison operators evaluate
to false whenever either operand is absent or non-numeric. -/
theorem evaluate_never_raises (node : Cond) (f : String) (op : Op) (v : Value)
    (p : Payload) :
    (evaluate node p = true ∨ evaluate node p = false) ∧
    (lookupField p f = none → op ≠ Op.opExists →
      evaluate (Cond.clause f op v) p = false) ∧
    ((op = Op.opGte ∨ op = Op.opLte ∨ op = Op.opGt ∨ op = Op.opLt) →
      ((lookupField p f).bind Value.asNum = none ∨ v.asNum = none) →
      evaluate (Cond.clause f op v) p = false) := by
  refine ⟨Bool.eq_false_or_eq_true _, ?_, ?_⟩
  · intro h hne
    cases op <;>
      first
      | exact absurd rfl hne
      | simp [evaluate, evalClause, h]
  · intro hop hnum
    rcases hop with h | h | h | h <;> subst h <;>
      cases ho : (lookupField p f).bind Value.asNum <;>
      cases hv : v.asNum <;>
      simp only [evaluate, evalClause, ho, hv] <;>
      rcases hnum with h1 | h1 <;> simp_all

/-- C3 witness: a `gte` clause over an empty payload evaluates to false. -/
theorem evaluate_never_raises_witness :
    evaluate (Cond.clause "oxygen_saturation" Op.opGte (Value.int 90)) [] = false :=
  (evaluate_never_raises (Cond.all []) "oxygen_saturation" Op.opGte
    (Value.int 90) []).2.2 (Or.inl rfl) (Or.inl rfl)

/-- A nullable vital is below a bound iff it is present and below it. -/
theorem vitalBelow_iff (v : Option Nat) (b : Nat) :
    vitalBelow v b = true ↔ ∃ o, v = some o ∧ o < b := by
  cases v <;> simp [vitalBelow]

/-- A nullable vital is at least a bound iff it is present and at least it. -/
theorem vitalAtLeast_iff (v : Option Nat) (b : Nat) :
    vitalAtLeast v b = true ↔ ∃ o, v = some o ∧ b ≤ o := by
  cases v <;> simp [vitalAtLeast]

/-- The signal list's length is the urgent-signal count. -/
theorem checkinSignals_length (c : PatientCheckIn) :
    (checkinSignals c).length = urgentSignalCount c := by
  unfold checkinSignals urgentSignalCount
  split_ifs <;> simp_all

/-- The signal list is empty iff no urgent signal holds. -/
theorem checkinSignals_isEmpty (c : PatientCheckIn) :
    (checkinSignals c).isEmpty = true ↔
      ¬ (8 ≤ c.symptom_severity ∨
         (∃ o, c.oxygen_saturation = some o ∧ o < 92) ∨
         (∃ b, c.systolic_bp = some b ∧ 180 ≤ b) ∨
         (∃ hr, c.heart_rate = some hr ∧ 130 ≤ hr) ∨
         (c.mood_score ≤ 2 ∧ c.medication_taken = false)) := by
  rw [List.isEmpty_iff_length_eq_zero]
  unfold checkinSignals
  simp only [List.length_append, apply_ite List.length, List.length_singleton,
    List.length_nil]
  constructor
  · intro h
    split_ifs at h <;> simp_all [vitalBelow_iff, vitalAtLeast_iff]
  · intro h
    push_neg at h
    obtain ⟨h1, h2, h3, h4, h5⟩ := h
    have b2 : vitalBelow c.oxygen_saturation 92 = false := by
      cases ho : c.oxygen_saturation <;> simp_all [vitalBelow]
    have b3 : vitalAtLeast c.systolic_bp 180 = false := by
      cases ho : c.systolic_bp <;> simp_all [vitalAtLeast]
    have b4 : vitalAtLeast c.heart_rate 130 = false := by
      cases ho : c.heart_rate <;> simp_all [vitalAtLeast]
    have b5 : (c.mood_score ≤ 2 && !c.medication_taken) = false := by
      rcases Bool.eq_false_or_eq_true c.medication_taken with hm | hm <;>
        simp_all
    simp [h1, b2, b3, b4, b5]

/-- C10: the check-in endpoint itself creates a clinical alert iff at least
one urgent signal holds (severe symptoms, low oxygen, critical blood
pressure, very high heart rate, or low mood without medication), with
severity critical iff at least two signals hold and high otherwise, and the
emitted payload's `auto_alert_id` is the created alert's id, or null when no
signal holds. -/
theorem checkin_alert_heuristic (c : PatientCheckIn) (aid : Int) :
    ((checkinCreate c aid).alert.isSome ↔
      (8 ≤ c.symptom_severity ∨
       (∃ o, c.oxygen_saturation = some o ∧ o < 92) ∨
       (∃ b, c.systolic_bp = some b ∧ 180 ≤ b) ∨
       (∃ hr, c.heart_rate = some hr ∧ 130 ≤ hr) ∨
       (c.mood_score ≤ 2 ∧ c.medication_taken = false))) ∧
    (∀ ap, (checkinCreate c aid).alert = some ap →
      (ap.severity = "critical" ↔ 2 ≤ urgentSignalCount c) ∧
      (urgentSignalCount c < 2 → ap.severity = "high")) ∧
    ((checkinCreate c aid).alert.isSome →
      lookupField (checkinCreate c aid).payload "auto_alert_id" =
        some (Value.int aid) ∧
      (checkinCreate c aid).alert_id = some aid) ∧
    ((checkinCreate c aid).alert = none →
      lookupField (checkinCreate c aid).payload "auto_alert_id" =
        some Value.null ∧
      (checkinCreate c aid).alert_id = none) := by
  have hrw := checkinSignals_isEmpty c
  have hlen := checkinSignals_length c
  refine ⟨?_, ?_, ?_, ?_⟩
  · rw [← not_iff_not, ← hrw]
    cases he : (checkinSignals c).isEmpty <;>
      simp [checkinCreate, checkin_alert_payload, he]
  · intro ap hap
    cases he : (checkinSignals c).isEmpty
    · simp only [checkinCreate, checkin_alert_payload, he, Bool.false_eq_true,
        if_false, Option.some.injEq] at hap
      rcases hap with rfl
      dsimp only
      rw [← hlen]
      refine ⟨⟨?_, ?_⟩, ?_⟩
      · intro hsev
        by_contra hlt
        rw [if_neg hlt] at hsev
        exact absurd hsev (by decide)
      · intro hge
        rw [if_pos hge]
      · intro hlt
        rw [if_neg (by omega : ¬ 2 ≤ (checkinSignals c).length)]
    · simp [checkinCreate, checkin_alert_payload, he] at hap
  · intro hsome
    cases he : (checkinSignals c).isEmpty <;>
      simp_all [checkinCreate, checkin_alert_payload, he, checkinEmitPayload,
        lookupField, optIntValue]
  · intro hnone
    cases he : (checkinSignals c).isEmpty <;>
      simp_all [checkinCreate, checkin_alert_payload, he, checkinEmitPayload,
        lookupField, optIntValue]

/-- C10 witness: a check-in with severe symptoms (one signal) at concrete
values yields a created alert whose id is threaded into `auto_alert_id`. -/
theorem checkin_alert_heuristic_witness :
    lookupField (checkinCreate
      ⟨1, 2, 60, 9, 5, true, some 120, some 97, some 80⟩ 7).payload
        "auto_alert_id" = some (Value.int 7) ∧
    (checkinCreate ⟨1, 2, 60, 9, 5, true, some 120, some 97, some 80⟩ 7).alert_id =
      some 7 :=
  (checkin_alert_heuristic ⟨1, 2, 60, 9, 5, true, some 120, some 97, some 80⟩
    7).2.2.1 (by decide)

/-- C9 (counterexample): the §6 admission contract row lists `ward_code`, but
the `admission.discharged` emission at `api/views.py:574` does not pass a
`ward_code` key, so not every emitting call site matches its table row. -/
theorem admission_discharged_keys_mismatch :
    "ward_code" ∈ specAdmissionDischargedFields ∧
    "ward_code" ∉
      (admissionDischargedEmitPayload 1 2 70 (some 3) "stable" "discharged").map
        Prod.fst := by
  constructor
  · simp [specAdmissionDischargedFields]
  · simp [admissionDischargedEmitPayload]

/-- C9 (amended): the `triage.assessed`, `checkin.submitted` and
`lab_order.completed` emissions pass payloads whose key lists are exactly the
fields the §6 contract table gives for those event types. -/
theorem emit_payload_keys_match (t : TriageAssessment) (taid : Option Int)
    (c : PatientCheckIn) (caid : Option Int) (o : LabOrder) :
    (triageEmitPayload t taid).map Prod.fst = specTriageFields ∧
    (checkinEmitPayload c caid).map Prod.fst = specCheckinFields ∧
    (labOrderEmitPayload o).map Prod.fst = specLabOrderFields :=
  ⟨rfl, rfl, rfl⟩

/-- Persisting a side effect touches only the three side-effect tables. -/
theorem applyEffect_frame (st : Store) (eff : Effect) :
    (applyEffect st eff).patients = st.patients ∧
    (applyEffect st eff).resources = st.resources ∧
    (applyEffect st eff).rules = st.rules ∧
    (applyEffect st eff).events = st.events ∧
    (applyEffect st eff).nextId = st.nextId ∧
    (applyEffect st eff).now = st.now := by
  cases eff with
  | alert a => simp [applyEffect]
  | appointment a => simp [applyEffect]
  | referral r =>
      simp only [applyEffect]
      split_ifs <;> simp

/-- Dispatch reads only the patient table, the resource table and the clock. -/
theorem dispatch_congr (r : WorkflowRule) (p : Payload) (st1 st2 : Store)
    (hp : st1.patients = st2.patients) (hr : st1.resources = st2.resources)
    (hn : st1.now = st2.now) :
    dispatch r p st1 = dispatch r p st2 := by
  unfold dispatch
  rw [hp, hr, hn]

/-- Running a rule batch touches only the three side-effect tables. -/
theorem runRules_frame (p : Payload) (rs : List WorkflowRule) (st : Store) :
    (runRules st p rs).1.patients = st.patients ∧
    (runRules st p rs).1.resources = st.resources ∧
    (runRules st p rs).1.rules = st.rules ∧
    (runRules st p rs).1.events = st.events ∧
    (runRules st p rs).1.nextId = st.nextId ∧
    (runRules st p rs).1.now = st.now := by
  induction rs generalizing st with
  | nil => simp [runRules]
  | cons r rest ih =>
      cases h : dispatch r p st with
      | ok eff =>
          have hf := applyEffect_frame st eff
          have hi := ih (applyEffect st eff)
          simp only [runRules, h]
          exact ⟨hi.1.trans hf.1, hi.2.1.trans hf.2.1, hi.2.2.1.trans hf.2.2.1,
            hi.2.2.2.1.trans hf.2.2.2.1, hi.2.2.2.2.1.trans hf.2.2.2.2.1,
            hi.2.2.2.2.2.trans hf.2.2.2.2.2⟩
      | error e =>
          simpa only [runRules, h] using ih st

/-- Dispatch outcomes are stable along a rule batch: a later rule sees the
same dispatch verdicts, because side-effect persistence does not change what
dispatch reads. -/
theorem dispatch_runRules_congr (r : WorkflowRule) (p q : Payload)
    (rs : List WorkflowRule) (st : Store) :
    dispatch r p (runRules st q rs).1 = dispatch r p st := by
  have hf := runRules_frame q rs st
  exact dispatch_congr r p _ st hf.1 hf.2.1 hf.2.2.2.2.2

/-- A rule batch collects no error iff every rule in it dispatches cleanly
against the starting store. -/
theorem runRules_errs_nil_iff (p : Payload) (rs : List WorkflowRule) (st : Store) :
    (runRules st p rs).2 = [] ↔ ∀ r ∈ rs, ∃ eff, dispatch r p st = .ok eff := by
  induction rs generalizing st with
  | nil => simp [runRules]
  | cons r rest ih =>
      cases h : dispatch r p st with
      | ok eff =>
          have hstep : ∀ r' ∈ rest,
              dispatch r' p (applyEffect st eff) = dispatch r' p st := by
            intro r' _
            have hf := applyEffect_frame st eff
            exact dispatch_congr r' p _ st hf.1 hf.2.1 hf.2.2.2.2.2
          simp only [runRules, h]
          rw [ih (applyEffect st eff)]
          constructor
          · intro hall
            intro r' hr'
            rcases List.mem_cons.mp hr' with rfl | hr'
            · exact ⟨eff, h⟩
            · rcases hall r' hr' with ⟨eff', he'⟩
              exact ⟨eff', (hstep r' hr').symm.trans he'⟩
          · intro hall r' hr'
            rcases hall r' (List.mem_cons_of_mem _ hr') with ⟨eff', he'⟩
            exact ⟨eff', (hstep r' hr').trans he'⟩
      | error e =>
          simp only [runRules, h]
          constructor
          · intro hcontra
            exact absurd hcontra (by simp)
          · intro hall
            rcases hall r (List.mem_cons_self r rest) with ⟨eff, heff⟩
            rw [h] at heff
            cases heff

/-- Every collected error detail is non-empty. -/
theorem runRules_errs_ne_nil (p : Payload) (rs : List WorkflowRule) (st : Store) :
    ∀ m ∈ (runRules st p rs).2, m ≠ "" := by
  induction rs generalizing st with
  | nil => simp [runRules]
  | cons r rest ih =>
      cases h : dispatch r p st with
      | ok eff =>
          simpa only [runRules, h] using ih (applyEffect st eff)
      | error e =>
          simp only [runRules, h]
          intro m hm
          rcases List.mem_cons.mp hm with rfl | hm
          · cases e with
            | unknownSubject => decide
            | noEligibleResource => decide
            | missingTemplateKey f =>
                simp only [DispatchError.message]
                intro hcontra
                have hlen := congrArg String.length hcontra
                rw [String.length_append] at hlen
                simp at hlen
                exact absurd hlen.1 (by decide)
          · exact ih st m hm

/-- In an event list with distinct ids, searching by a member's id finds
exactly that member. -/
theorem find_by_id_of_nodup (l : List DomainEvent) (ev : DomainEvent)
    (hnd : (l.map DomainEvent.id).Nodup) (hmem : ev ∈ l) :
    l.find? (fun e => e.id == ev.id) = some ev := by
  induction l with
  | nil => cases hmem
  | cons a rest ih =>
      rcases List.mem_cons.mp hmem with rfl | hmem
      · simp [List.find?]
      · have hmap : (a.id :: rest.map DomainEvent.id).Nodup := by simpa using hnd
        have hnotin : a.id ∉ rest.map DomainEvent.id := (List.nodup_cons.mp hmap).1
        have hne : ¬ ((fun e : DomainEvent => e.id == ev.id) a = true) := by
          simp only [beq_iff_eq]
          intro hcontra
          exact hnotin (hcontra ▸ List.mem_map_of_mem DomainEvent.id hmem)
        rw [show List.find? (fun e => e.id == ev.id) (a :: rest) =
            List.find? (fun e => e.id == ev.id) rest from
          List.find?_cons_of_neg rest hne]
        exact ih (List.nodup_cons.mp hmap).2 hmem

/-- Replacing the event with a given id keeps the id list unchanged. -/
theorem map_update_ids (l : List DomainEvent) (i : Nat) (x : DomainEvent)
    (hx : x.id = i) :
    (l.map (fun e => if e.id == i then x else e)).map DomainEvent.id =
      l.map DomainEvent.id := by
  induction l with
  | nil => rfl
  | cons a rest ih =>
      by_cases ha : a.id = i
      · have hb : (a.id == i) = true := by simp [ha]
        simp only [List.map_cons, hb, if_true, ih]
        rw [hx, ha]
      · have hb : (a.id == i) = false := by simp [ha]
        simp only [List.map_cons, hb, Bool.false_eq_true, if_false, ih]

/-- Finalizing an attempt does not change the event's identity. -/
theorem finalizeEvent_id (ev : DomainEvent) (now : Nat) (res : Option String) :
    (finalizeEvent ev now res).id = ev.id := by
  cases res <;> rfl

/-- Finalizing an attempt increments the attempt counter by exactly one. -/
theorem finalizeEvent_attempts (ev : DomainEvent) (now : Nat) (res : Option String) :
    (finalizeEvent ev now res).attempts = ev.attempts + 1 := by
  cases res <;> rfl

/-- Finalizing an attempt yields processed on success and failed on error. -/
theorem finalizeEvent_status (ev : DomainEvent) (now : Nat) (res : Option String) :
    (finalizeEvent ev now res).status =
      (match res with | none => EventStatus.processed | some _ => EventStatus.failed) := by
  cases res <;> rfl

/-- A finalized event satisfies the per-event invariant whenever the recorded
error detail, if any, is non-empty. -/
theorem finalizeEvent_wf (ev : DomainEvent) (now : Nat) (res : Option String)
    (hres : ∀ m, res = some m → m ≠ "") :
    eventWF (finalizeEvent ev now res) := by
  cases res with
  | none => exact ⟨by simp [finalizeEvent], by simp [finalizeEvent]⟩
  | some m =>
      refine ⟨?_, by simp [finalizeEvent]⟩
      simp only [finalizeEvent]
      have := hres m rfl
      simp [this]

/-- A failing attempt outcome carries a non-empty error detail. -/
theorem attemptResult_ne_empty (st : Store) (ev : DomainEvent) (m : String)
    (h : attemptResult st ev = some m) : m ≠ "" := by
  unfold attemptResult at h
  have hmem : m ∈ attemptErrors st ev := List.mem_of_mem_head? h
  exact runRules_errs_ne_nil ev.payload (firedRules st.rules ev) st m hmem

/-- One processing attempt touches the event store and the side-effect tables
only: patients, resources, rules, clock and id source are unchanged. -/
theorem processOne_frame (st : Store) (i : Nat) :
    (processOne st i).patients = st.patients ∧
    (processOne st i).resources = st.resources ∧
    (processOne st i).rules = st.rules ∧
    (processOne st i).nextId = st.nextId ∧
    (processOne st i).now = st.now := by
  unfold processOne
  cases h : st.events.find? (fun e => e.id == i) with
  | none => simp
  | some ev =>
      have hf := runRules_frame ev.payload (firedRules st.rules ev) st
      simp only
      exact ⟨hf.1, hf.2.1, hf.2.2.1, hf.2.2.2.2.1, hf.2.2.2.2.2⟩

/-- The event list after an attempt on an id that is not stored. -/
theorem processOne_events_none (st : Store) (i : Nat)
    (h : st.events.find? (fun e => e.id == i) = none) :
    (processOne st i).events = st.events := by
  unfold processOne
  rw [h]

/-- The event list after an attempt on a stored event: only that event is
rewritten, to its finalized form. -/
theorem processOne_events_some (st : Store) (i : Nat) (ev : DomainEvent)
    (h : st.events.find? (fun e => e.id == i) = some ev) :
    (processOne st i).events = st.events.map
      (fun e => if e.id == i then finalizeEvent ev st.now (attemptResult st ev) else e) := by
  unfold processOne
  rw [h]
  simp only
  rw [(runRules_frame ev.payload (firedRules st.rules ev) st).2.2.2.1]

/-- One processing attempt never adds, removes or renames events. -/
theorem processOne_ids (st : Store) (i : Nat) :
    (processOne st i).events.map DomainEvent.id = st.events.map DomainEvent.id := by
  cases h : st.events.find? (fun e => e.id == i) with
  | none => rw [processOne_events_none st i h]
  | some ev =>
      have hid : ev.id = i := by
        have := List.find?_some h
        simpa using this
      rw [processOne_events_some st i ev h,
        map_update_ids _ _ _ ((finalizeEvent_id ev st.now _).trans hid)]

/-- Events other than the attempted one are untouched by an attempt. -/
theorem processOne_mem_other (st : Store) (i : Nat) (e : DomainEvent)
    (hmem : e ∈ st.events) (hne : e.id ≠ i) :
    e ∈ (processOne st i).events := by
  cases h : st.events.find? (fun e => e.id == i) with
  | none => rw [processOne_events_none st i h]; exact hmem
  | some ev =>
      rw [processOne_events_some st i ev h]
      refine List.mem_map.mpr ⟨e, hmem, ?_⟩
      simp [hne]

/-- After an attempt on a stored event (distinct ids), the store holds the
finalized form of that event. -/
theorem processOne_mem_target (st : Store) (ev : DomainEvent)
    (hnd : (st.events.map DomainEvent.id).Nodup) (hmem : ev ∈ st.events) :
    finalizeEvent ev st.now (attemptResult st ev) ∈ (processOne st ev.id).events := by
  have hfind := find_by_id_of_nodup st.events ev hnd hmem
  rw [processOne_events_some st ev.id ev hfind]
  exact List.mem_map.mpr ⟨ev, hmem, by simp⟩

/-- Rule registry membership: exactly the active rules of the event type. -/
theorem mem_lookupRules (rules : List WorkflowRule) (et : String) (r : WorkflowRule) :
    r ∈ lookupRules rules et ↔ (r ∈ rules ∧ r.active = true ∧ r.event_type = et) := by
  simp [lookupRules, List.mem_filter, and_assoc]

/-- The registry order is transitive. -/
theorem ruleLE_trans (a b c : WorkflowRule) :
    ruleLE a b → ruleLE b c → ruleLE a c := by
  intro hab hbc
  simp only [ruleLE, Bool.or_eq_true, Bool.and_eq_true, decide_eq_true_eq] at *
  rcases hab with h1 | ⟨h1, h2⟩ <;> rcases hbc with h3 | ⟨h3, h4⟩
  · exact Or.inl (h1.trans h3)
  · exact Or.inl (h3 ▸ h1)
  · exact Or.inl (h1 ▸ h3)
  · exact Or.inr ⟨h1.trans h3, h2.trans h4⟩

/-- The registry order is total. -/
theorem ruleLE_total (a b : WorkflowRule) :
    ruleLE a b || ruleLE b a := by
  simp only [ruleLE, Bool.or_eq_true, Bool.and_eq_true, decide_eq_true_eq]
  rcases Nat.lt_trichotomy a.priority b.priority with h | h | h
  · exact Or.inl (Or.inl h)
  · rcases le_total a.name b.name with hn | hn
    · exact Or.inl (Or.inr ⟨h, hn⟩)
    · exact Or.inr (Or.inr ⟨h.symm, hn⟩)
  · exact Or.inr (Or.inl h)

/-- C7: the registry returns exactly the active rules matching the event
type, ordered by priority ascending with name ascending as tie-break, and an
inactive rule never fires in a processing attempt, since each attempt
recomputes the lookup from the current rule store. -/
theorem rule_lookup_spec (rules : List WorkflowRule) (et : String)
    (ev : DomainEvent) (r : WorkflowRule) :
    (r ∈ lookupRules rules et ↔ (r ∈ rules ∧ r.active = true ∧ r.event_type = et)) ∧
    (lookupRules rules et).Pairwise
      (fun a b => a.priority < b.priority ∨ (a.priority = b.priority ∧ a.name ≤ b.name)) ∧
    (r.active = false → r ∉ firedRules rules ev) := by
  refine ⟨mem_lookupRules rules et r, ?_, ?_⟩
  · have hs := List.sorted_mergeSort ruleLE_trans ruleLE_total
      (rules.filter (fun r => r.active && r.event_type == et))
    refine hs.imp ?_
    intro a b hab
    simpa only [ruleLE, Bool.or_eq_true, Bool.and_eq_true, decide_eq_true_eq]
      using hab
  · intro hina hmem
    have hlk := List.mem_of_mem_filter hmem
    have := ((mem_lookupRules rules ev.event_type r).mp hlk).2.1
    rw [this] at hina
    cases hina

/-- C7 witness: the concrete inactive sample rule does not fire for the
sample event even when it is the only stored rule. -/
theorem rule_lookup_spec_witness :
    wInactiveRule ∉ firedRules [wInactiveRule] wEvent :=
  (rule_lookup_spec [wInactiveRule] "triage.assessed" wEvent wInactiveRule).2.2 rfl

/-- A successfully rendered template had every placeholder present in the
payload — rendering is all-or-nothing. -/
theorem renderTemplate_ok_holes (t : Template) (p : Payload) (s : String)
    (h : renderTemplate t p = .ok s) :
    ∀ f, Tmpl.hole f ∈ t → (lookupField p f).isSome = true := by
  induction t generalizing s with
  | nil => intro f hf; cases hf
  | cons part rest ih =>
      cases part with
      | lit s0 =>
          intro f hf
          rcases List.mem_cons.mp hf with hcontra | hf
          · cases hcontra
          · unfold renderTemplate at h
            cases hr : renderTemplate rest p with
            | ok s1 => exact ih s1 hr f hf
            | error e => rw [hr] at h; cases h
      | hole f0 =>
          intro f hf
          unfold renderTemplate at h
          cases hl : lookupField p f0 with
          | none => rw [hl] at h; cases h
          | some v =>
              rw [hl] at h
              rcases List.mem_cons.mp hf with heq | hf
              · injection heq with heq'
                rw [heq', hl]
                rfl
              · cases hr : renderTemplate rest p with
                | ok s1 => exact ih s1 hr f hf
                | error e => rw [hr] at h; cases h

/-- A template with a placeholder naming a key absent from the payload never
renders: some placeholder raises a dispatch error. -/
theorem renderTemplate_missing (t : Template) (p : Payload) (f : String)
    (hmem : Tmpl.hole f ∈ t) (habs : lookupField p f = none) :
    ∃ e, renderTemplate t p = .error e := by
  induction t with
  | nil => cases hmem
  | cons part rest ih =>
      cases part with
      | lit s0 =>
          have hf : Tmpl.hole f ∈ rest := by
            rcases List.mem_cons.mp hmem with hcontra | hf
            · cases hcontra
            · exact hf
          rcases ih hf with ⟨e, he⟩
          refine ⟨e, ?_⟩
          unfold renderTemplate
          rw [he]
          rfl
      | hole f0 =>
          cases hl : lookupField p f0 with
          | none =>
              refine ⟨.missingTemplateKey f0, ?_⟩
              unfold renderTemplate
              rw [hl]
          | some v =>
              have hf : Tmpl.hole f ∈ rest := by
                rcases List.mem_cons.mp hmem with heq | hf
                · injection heq with heq'
                  rw [heq'] at habs
                  rw [habs] at hl
                  cases hl
                · exact hf
              rcases ih hf with ⟨e, he⟩
              refine ⟨e, ?_⟩
              unfold renderTemplate
              rw [hl, he]
              rfl

/-- A rule whose rendered config references a key absent from the payload
dispatches to an error, whatever the action kind. -/
theorem dispatch_missing_key (r : WorkflowRule) (p : Payload) (st : Store)
    (f : String) (t : Template)
    (ht : t ∈ configTemplates r.action_type r.action_config)
    (hmem : Tmpl.hole f ∈ t) (habs : lookupField p f = none) :
    ∃ e, dispatch r p st = .error e := by
  unfold dispatch
  cases hs : resolveSubject p st.patients with
  | error e => exact ⟨e, rfl⟩
  | ok subject =>
      cases hat : r.action_type with
      | create_alert =>
          rw [hat] at ht
          simp only [configTemplates, List.mem_cons, List.mem_singleton,
            List.not_mem_nil, or_false] at ht
          cases h1 : renderTemplate r.action_config.title p with
          | error e => exact ⟨e, rfl⟩
          | ok s1 =>
              rcases ht with rfl | rfl
              · have := renderTemplate_ok_holes _ p s1 h1 f hmem
                rw [habs] at this
                cases this
              · rcases renderTemplate_missing _ p f hmem habs with ⟨e, he⟩
                exact ⟨e, by rw [he]⟩
      | create_appointment =>
          rw [hat] at ht
          simp only [configTemplates, List.mem_singleton] at ht
          subst ht
          rcases renderTemplate_missing _ p f hmem habs with ⟨e, he⟩
          exact ⟨e, by rw [he]⟩
      | create_referral =>
          rw [hat] at ht
          simp only [configTemplates, List.mem_singleton] at ht
          subst ht
          cases hres : firstEligibleResource st.resources r.action_config.resource_category with
          | none => exact ⟨.noEligibleResource, rfl⟩
          | some res =>
              rcases renderTemplate_missing _ p f hmem habs with ⟨e, he⟩
              exact ⟨e, by rw [he]⟩

/-- C5: a fired rule whose `action_config` contains a placeholder naming a
key absent from the event's payload never renders (no partially rendered
message), its dispatch yields a `DispatchError`, and the failure is recorded
on the event as status failed with a non-empty error message and the attempt
counter incremented — the attempt itself returns normally. -/
theorem missing_template_key_fails_event (st : Store) (ev : DomainEvent)
    (r : WorkflowRule) (f : String) (t : Template)
    (hnd : (st.events.map DomainEvent.id).Nodup)
    (hmem : ev ∈ st.events)
    (hfired : r ∈ firedRules st.rules ev)
    (ht : t ∈ configTemplates r.action_type r.action_config)
    (hhole : Tmpl.hole f ∈ t)
    (habs : lookupField ev.payload f = none) :
    (∀ s, renderTemplate t ev.payload ≠ .ok s) ∧
    (∃ e, dispatch r ev.payload st = .error e) ∧
    (∃ e' ∈ (processOne st ev.id).events,
      e'.id = ev.id ∧ e'.status = .failed ∧ e'.error_message ≠ "" ∧
      e'.attempts = ev.attempts + 1) := by
  have hdisp := dispatch_missing_key r ev.payload st f t ht hhole habs
  refine ⟨?_, hdisp, ?_⟩
  · intro s hcontra
    have := renderTemplate_ok_holes t ev.payload s hcontra f hhole
    rw [habs] at this
    cases this
  · have herrs : attemptErrors st ev ≠ [] := by
      intro hnil
      have hall := (runRules_errs_nil_iff ev.payload (firedRules st.rules ev) st).mp hnil
      rcases hall r hfired with ⟨eff, heff⟩
      rcases hdisp with ⟨e, he⟩
      rw [he] at heff
      cases heff
    have hres : ∃ m, attemptResult st ev = some m := by
      cases herrs2 : attemptErrors st ev with
      | nil => exact absurd herrs2 herrs
      | cons m rest =>
          refine ⟨m, ?_⟩
          unfold attemptResult
          rw [herrs2]
          rfl
    rcases hres with ⟨m, hm⟩
    refine ⟨finalizeEvent ev st.now (attemptResult st ev),
      processOne_mem_target st ev hnd hmem,
      finalizeEvent_id ev st.now _, ?_, ?_, finalizeEvent_attempts ev st.now _⟩
    · rw [hm]
      rfl
    · rw [hm]
      exact attemptResult_ne_empty st ev m hm

/-- C5 witness: in the concrete sample store, whose only rule's alert message
references a key the sample payload lacks, the attempt marks the event failed
with a non-empty error and one more attempt. -/
theorem missing_template_key_fails_event_witness :
    ∃ e' ∈ (processOne wStore wEvent.id).events,
      e'.id = wEvent.id ∧ e'.status = .failed ∧ e'.error_message ≠ "" ∧
      e'.attempts = wEvent.attempts + 1 :=
  (missing_template_key_fails_event wStore wEvent wBadRule "absent_key"
    [Tmpl.hole "absent_key"]
    (by decide) (by decide)
    (by simp [firedRules, lookupRules, wStore, wBadRule, wEvent, mkEvent,
      evaluate, evalAllChildren])
    (by decide) (by decide) (by decide)).2.2

/-- One processing attempt preserves the per-event invariant. -/
theorem processOne_wf (st : Store) (i : Nat)
    (hwf : ∀ e ∈ st.events, eventWF e) :
    ∀ e ∈ (processOne st i).events, eventWF e := by
  cases h : st.events.find? (fun e => e.id == i) with
  | none => rw [processOne_events_none st i h]; exact hwf
  | some ev =>
      rw [processOne_events_some st i ev h]
      intro e he
      rcases List.mem_map.mp he with ⟨a, ha, rfl⟩
      cases hb : (a.id == i) with
      | true =>
          simp only [hb, if_true]
          exact finalizeEvent_wf ev st.now _ (fun m hm => attemptResult_ne_empty st ev m hm)
      | false =>
          simp only [hb, Bool.false_eq_true, if_false]
          exact hwf a ha

/-- An attempt moves every stored event to an event with the same id and at
least as many attempts. -/
theorem processOne_attempts_le (st : Store) (i : Nat)
    (hnd : (st.events.map DomainEvent.id).Nodup) :
    ∀ e ∈ st.events, ∃ e' ∈ (processOne st i).events,
      e'.id = e.id ∧ e.attempts ≤ e'.attempts := by
  intro e he
  by_cases hid : e.id = i
  · subst hid
    refine ⟨finalizeEvent e st.now (attemptResult st e),
      processOne_mem_target st e hnd he, finalizeEvent_id e st.now _, ?_⟩
    rw [finalizeEvent_attempts]
    omega
  · exact ⟨e, processOne_mem_other st i e he hid, rfl, le_refl _⟩

/-- A sweep never adds, removes or renames events. -/
theorem processList_ids (st : Store) (is : List Nat) :
    (processList st is).1.events.map DomainEvent.id = st.events.map DomainEvent.id := by
  induction is generalizing st with
  | nil => rfl
  | cons i rest ih =>
      show ((processList (processOne st i) rest).1.events.map DomainEvent.id) = _
      rw [ih (processOne st i), processOne_ids]

/-- A sweep preserves the per-event invariant. -/
theorem processList_wf (st : Store) (is : List Nat)
    (hwf : ∀ e ∈ st.events, eventWF e) :
    ∀ e ∈ (processList st is).1.events, eventWF e := by
  induction is generalizing st with
  | nil => exact hwf
  | cons i rest ih =>
      exact ih (processOne st i) (processOne_wf st i hwf)

/-- A sweep moves every stored event to an event with the same id and at
least as many attempts. -/
theorem processList_attempts_le (st : Store) (is : List Nat)
    (hnd : (st.events.map DomainEvent.id).Nodup) :
    ∀ e ∈ st.events, ∃ e' ∈ (processList st is).1.events,
      e'.id = e.id ∧ e.attempts ≤ e'.attempts := by
  induction is generalizing st with
  | nil => intro e he; exact ⟨e, he, rfl, le_refl _⟩
  | cons i rest ih =>
      intro e he
      rcases processOne_attempts_le st i hnd e he with ⟨e1, he1, hid1, hle1⟩
      have hnd1 : ((processOne st i).events.map DomainEvent.id).Nodup := by
        rw [processOne_ids]; exact hnd
      rcases ih (processOne st i) hnd1 e1 he1 with ⟨e2, he2, hid2, hle2⟩
      exact ⟨e2, he2, hid2.trans hid1, hle1.trans hle2⟩

/-- C6: a freshly recorded event is pending with zero attempts and satisfies
the per-event invariant; after an emission or a sweep every stored event
still satisfies the invariant (error message non-empty iff failed,
processed_at set iff processed), every previously stored event persists under
its id with at least as many attempts, and the id list shows no deletion. -/
theorem domain_event_invariants (st : Store) (et src : String) (p : Payload)
    (limit maxA : Nat) (inc : Bool)
    (hwf : ∀ e ∈ st.events, eventWF e)
    (hnd : (st.events.map DomainEvent.id).Nodup)
    (hfresh : ∀ e ∈ st.events, e.id ≠ st.nextId) :
    ((mkEvent st.nextId et src p st.now).status = .pending ∧
     (mkEvent st.nextId et src p st.now).attempts = 0 ∧
     eventWF (mkEvent st.nextId et src p st.now)) ∧
    (∀ e ∈ (emit st et src p).events, eventWF e) ∧
    (∀ e ∈ st.events, ∃ e' ∈ (emit st et src p).events,
      e'.id = e.id ∧ e.attempts ≤ e'.attempts) ∧
    ((emit st et src p).events.map DomainEvent.id =
      st.events.map DomainEvent.id ++ [st.nextId]) ∧
    (∀ e ∈ (process_pending st limit inc maxA).1.events, eventWF e) ∧
    (∀ e ∈ st.events, ∃ e' ∈ (process_pending st limit inc maxA).1.events,
      e'.id = e.id ∧ e.attempts ≤ e'.attempts) ∧
    ((process_pending st limit inc maxA).1.events.map DomainEvent.id =
      st.events.map DomainEvent.id) := by
  set newEv := mkEvent st.nextId et src p st.now with hnew
  set st2 : Store := { st with events := st.events ++ [newEv], nextId := st.nextId + 1 }
    with hst2
  have hwf2 : ∀ e ∈ st2.events, eventWF e := by
    intro e he
    rcases List.mem_append.mp he with he | he
    · exact hwf e he
    · rcases List.mem_singleton.mp he with rfl
      exact ⟨by simp [hnew, mkEvent], by simp [hnew, mkEvent]⟩
  have hids2 : st2.events.map DomainEvent.id =
      st.events.map DomainEvent.id ++ [st.nextId] := by
    simp [hst2, hnew, mkEvent]
  have hnd2 : (st2.events.map DomainEvent.id).Nodup := by
    rw [hids2]
    refine List.Nodup.append hnd (List.nodup_singleton _) ?_
    intro x hx hy
    rcases List.mem_singleton.mp hy with rfl
    rcases List.mem_map.mp hx with ⟨e, he, hid⟩
    exact hfresh e he hid
  have hemit : emit st et src p = processOne st2 st.nextId := rfl
  refine ⟨⟨rfl, rfl, ⟨by simp [hnew, mkEvent], by simp [hnew, mkEvent]⟩⟩,
    ?_, ?_, ?_, ?_, ?_, ?_⟩
  · rw [hemit]
    exact processOne_wf st2 st.nextId hwf2
  · intro e he
    rw [hemit]
    exact processOne_attempts_le st2 st.nextId hnd2 e (List.mem_append_left _ he)
  · rw [hemit, processOne_ids, hids2]
  · exact processList_wf st _ hwf
  · exact processList_attempts_le st _ hnd
  · exact processList_ids st _

/-- C6 witness: instantiating the invariant theorem at the concrete sample
store shows the freshly recorded event is pending with zero attempts. -/
theorem domain_event_invariants_witness :
    (mkEvent wStore.nextId "triage.assessed" "web" [] wStore.now).status =
      EventStatus.pending ∧
    (mkEvent wStore.nextId "triage.assessed" "web" [] wStore.now).attempts = 0 ∧
    eventWF (mkEvent wStore.nextId "triage.assessed" "web" [] wStore.now) :=
  (domain_event_invariants wStore "triage.assessed" "web" [] 5 3 false
    (by decide) (by decide) (by decide)).1

/-- Decoding the sweep candidate predicate. -/
theorem isCandidate_iff (inc : Bool) (maxA : Nat) (e : DomainEvent) :
    isCandidate inc maxA e = true ↔
      (e.status = .pending ∨ (inc = true ∧ e.status = .failed ∧ e.attempts < maxA)) := by
  simp [isCandidate, Bool.or_eq_true, Bool.and_eq_true, and_assoc]

/-- The candidate order is transitive. -/
theorem occurredLE_trans (a b c : DomainEvent) :
    occurredLE a b → occurredLE b c → occurredLE a c := by
  simp only [occurredLE, decide_eq_true_eq]
  omega

/-- The candidate order is total. -/
theorem occurredLE_total (a b : DomainEvent) :
    occurredLE a b || occurredLE b a := by
  simp only [occurredLE, Bool.or_eq_true, decide_eq_true_eq]
  omega

/-- Selected candidates carry distinct ids whenever the store does. -/
theorem selectCandidates_ids_nodup (st : Store) (limit maxA : Nat) (inc : Bool)
    (hnd : (st.events.map DomainEvent.id).Nodup) :
    ((selectCandidates st limit inc maxA).map DomainEvent.id).Nodup := by
  have h1 : List.Sublist
      ((st.events.filter (isCandidate inc maxA)).map DomainEvent.id)
      (st.events.map DomainEvent.id) :=
    (List.filter_sublist _).map _
  have h2 : ((st.events.filter (isCandidate inc maxA)).map DomainEvent.id).Nodup :=
    hnd.sublist h1
  have h3 : (((st.events.filter (isCandidate inc maxA)).mergeSort occurredLE).map
      DomainEvent.id).Nodup :=
    (List.Perm.nodup_iff ((List.mergeSort_perm _ _).map _)).mpr h2
  exact h3.sublist ((List.take_sublist _ _).map _)

/-- Events untouched by a sweep keep their stored record verbatim. -/
theorem processList_mem_other (st : Store) (is : List Nat) (e : DomainEvent)
    (hmem : e ∈ st.events) (hni : e.id ∉ is) :
    e ∈ (processList st is).1.events := by
  induction is generalizing st with
  | nil => exact hmem
  | cons i rest ih =>
      have hne : e.id ≠ i := fun h => hni (h ▸ List.mem_cons_self i rest)
      exact ih (processOne st i) (processOne_mem_other st i e hmem hne)
        (fun h => hni (List.mem_cons_of_mem _ h))

/-- A sweep over distinct ids increments each targeted stored event's attempt
counter by exactly one and leaves it processed or failed. -/
theorem processList_attempts_exact (st : Store) (is : List Nat)
    (hnd : (st.events.map DomainEvent.id).Nodup) (hisnd : is.Nodup) :
    ∀ e ∈ st.events, e.id ∈ is →
      ∃ e' ∈ (processList st is).1.events,
        e'.id = e.id ∧ e'.attempts = e.attempts + 1 ∧
        (e'.status = .processed ∨ e'.status = .failed) := by
  induction is generalizing st with
  | nil => intro e _ hin; cases hin
  | cons i rest ih =>
      intro e he hin
      rcases List.mem_cons.mp hin with heq | hin
      · have hfin : finalizeEvent e st.now (attemptResult st e) ∈
            (processOne st i).events := by
          rw [← heq]
          exact processOne_mem_target st e hnd he
        have hni : e.id ∉ rest := heq ▸ (List.nodup_cons.mp hisnd).1
        have hkeep : finalizeEvent e st.now (attemptResult st e) ∈
            (processList (processOne st i) rest).1.events :=
          processList_mem_other (processOne st i) rest _ hfin
            (by rw [finalizeEvent_id]; exact hni)
        refine ⟨finalizeEvent e st.now (attemptResult st e), hkeep,
          finalizeEvent_id e st.now _, finalizeEvent_attempts e st.now _, ?_⟩
        cases attemptResult st e with
        | none => exact Or.inl rfl
        | some m => exact Or.inr rfl
      · have hne : e.id ≠ i := fun h => (List.nodup_cons.mp hisnd).1 (h ▸ hin)
        have he1 : e ∈ (processOne st i).events := processOne_mem_other st i e he hne
        have hnd1 : ((processOne st i).events.map DomainEvent.id).Nodup := by
          rw [processOne_ids]; exact hnd
        exact ih (processOne st i) hnd1 (List.nodup_cons.mp hisnd).2 e he1 hin

/-- C2: a sweep selects exactly the oldest-occurred-first candidates — each
selected event is a stored pending event or, when `include_failed` is set, a
stored failed event with attempts below `max_attempts` (never a processed
event); the selection is capped at `limit`, sorted oldest-first, dominates
every unselected candidate, and each selected event's attempt counter is
incremented by exactly one by the call. -/
theorem process_pending_selection (st : Store) (limit maxA : Nat) (inc : Bool)
    (hnd : (st.events.map DomainEvent.id).Nodup) :
    (∀ ev ∈ selectCandidates st limit inc maxA,
       ev ∈ st.events ∧
       (ev.status = .pending ∨ (inc = true ∧ ev.status = .failed ∧ ev.attempts < maxA)) ∧
       ev.status ≠ .processed) ∧
    (selectCandidates st limit inc maxA).length =
      min limit (st.events.filter (isCandidate inc maxA)).length ∧
    (selectCandidates st limit inc maxA).Pairwise
      (fun a b => a.occurred_at ≤ b.occurred_at) ∧
    (∀ a ∈ selectCandidates st limit inc maxA,
     ∀ b ∈ st.events.filter (isCandidate inc maxA),
       b ∉ selectCandidates st limit inc maxA → a.occurred_at ≤ b.occurred_at) ∧
    (∀ ev ∈ selectCandidates st limit inc maxA,
       ∃ e' ∈ (process_pending st limit inc maxA).1.events,
         e'.id = ev.id ∧ e'.attempts = ev.attempts + 1) := by
  have hmemsel : ∀ ev ∈ selectCandidates st limit inc maxA,
      ev ∈ st.events.filter (isCandidate inc maxA) := by
    intro ev hev
    have h1 : ev ∈ (st.events.filter (isCandidate inc maxA)).mergeSort occurredLE :=
      List.take_subset _ _ hev
    exact (List.mem_mergeSort).mp h1
  refine ⟨?_, ?_, ?_, ?_, ?_⟩
  · intro ev hev
    have h2 := hmemsel ev hev
    have h3 := List.mem_of_mem_filter h2
    have h4 := (isCandidate_iff inc maxA ev).mp (List.of_mem_filter h2)
    refine ⟨h3, h4, ?_⟩
    rcases h4 with h | ⟨_, h, _⟩ <;> rw [h] <;> intro hcontra <;> cases hcontra
  · simp [selectCandidates, List.length_take, Nat.min_comm]
  · have hs := List.sorted_mergeSort occurredLE_trans occurredLE_total
      (st.events.filter (isCandidate inc maxA))
    have hp := hs.sublist (List.take_sublist limit _)
    refine hp.imp ?_
    intro a b hab
    simpa only [occurredLE, decide_eq_true_eq] using hab
  · intro a ha b hb hbn
    have hs := List.sorted_mergeSort occurredLE_trans occurredLE_total
      (st.events.filter (isCandidate inc maxA))
    have hsplit := List.take_append_drop limit
      ((st.events.filter (isCandidate inc maxA)).mergeSort occurredLE)
    rw [← hsplit] at hs
    have hpa := (List.pairwise_append.mp hs).2.2
    have hbms : b ∈ (st.events.filter (isCandidate inc maxA)).mergeSort occurredLE :=
      (List.mem_mergeSort).mpr hb
    rw [← hsplit] at hbms
    rcases List.mem_append.mp hbms with hbt | hbd
    · exact absurd hbt hbn
    · have := hpa a ha b hbd
      simpa only [occurredLE, decide_eq_true_eq] using this
  · intro ev hev
    have h2 := hmemsel ev hev
    have h3 := List.mem_of_mem_filter h2
    have hidin : ev.id ∈ (selectCandidates st limit inc maxA).map DomainEvent.id :=
      List.mem_map_of_mem _ hev
    rcases processList_attempts_exact st
        ((selectCandidates st limit inc maxA).map DomainEvent.id) hnd
        (selectCandidates_ids_nodup st limit maxA inc hnd) ev h3 hidin with
      ⟨e', he', hid, hatt, _⟩
    exact ⟨e', he', hid, hatt⟩

/-- C2 witness: at the concrete sample store (one pending event) the length
of the selection is the single candidate. -/
theorem process_pending_selection_witness :
    (selectCandidates wStore 10 false 3).length =
      min 10 (wStore.events.filter (isCandidate false 3)).length :=
  (process_pending_selection wStore 10 3 false (by decide)).2.1

/-- The per-event result records, in order, one entry per processed id. -/
theorem processList_results_fst (st : Store) (is : List Nat) :
    (processList st is).2.map Prod.fst = is := by
  induction is generalizing st with
  | nil => rfl
  | cons i rest ih =>
      have hstep : (processList st (i :: rest)).2 =
          (i, (((processOne st i).events.find? (fun e => e.id == i)).map
            DomainEvent.status).getD .pending) ::
          (processList (processOne st i) rest).2 := rfl
      rw [hstep, List.map_cons, ih (processOne st i)]

/-- After rewriting the event with a given id, searching for that id finds
the rewritten event. -/
theorem find_update_self (l : List DomainEvent) (i : Nat) (x : DomainEvent)
    (hx : x.id = i) (ev : DomainEvent)
    (h : l.find? (fun e => e.id == i) = some ev) :
    (l.map (fun e => if e.id == i then x else e)).find? (fun e => e.id == i) =
      some x := by
  induction l with
  | nil => cases h
  | cons a rest ih =>
      cases hb : (a.id == i) with
      | true =>
          rw [List.map_cons]
          have hhead : (if (a.id == i) = true then x else a) = x := by rw [hb]; rfl
          rw [hhead]
          have hpx : ((fun e : DomainEvent => e.id == i) x) = true := by
            simp [hx]
          rw [show List.find? (fun e => e.id == i)
              (x :: rest.map (fun e => if e.id == i then x else e)) = some x from
            List.find?_cons_of_pos _ hpx]
      | false =>
          rw [List.map_cons]
          have hhead : (if (a.id == i) = true then x else a) = a := by rw [hb]; rfl
          rw [hhead]
          have hpa : ¬ ((fun e : DomainEvent => e.id == i) a = true) := by
            show ¬ (a.id == i) = true
            rw [hb]
            exact Bool.false_ne_true
          rw [show List.find? (fun e => e.id == i)
              (a :: rest.map (fun e => if e.id == i then x else e)) =
              List.find? (fun e => e.id == i)
                (rest.map (fun e => if e.id == i then x else e)) from
            List.find?_cons_of_neg _ hpa]
          have hrest : rest.find? (fun e => e.id == i) = some ev := by
            rw [show List.find? (fun e => e.id == i) (a :: rest) =
                List.find? (fun e => e.id == i) rest from
              List.find?_cons_of_neg _ hpa] at h
            exact h
          exact ih hrest

/-- Every recorded sweep result for an id stored in the event table is
processed or failed (never stuck pending). -/
theorem processList_results_status (st : Store) (is : List Nat)
    (hsub : ∀ i ∈ is, i ∈ st.events.map DomainEvent.id) :
    ∀ r ∈ (processList st is).2, r.2 = .processed ∨ r.2 = .failed := by
  induction is generalizing st with
  | nil => intro r hr; cases hr
  | cons i rest ih =>
      intro r hr
      have hstep : ∀ r' ∈ (processList (processOne st i) rest).2,
          r'.2 = .processed ∨ r'.2 = .failed := by
        refine ih (processOne st i) ?_
        intro j hj
        rw [processOne_ids]
        exact hsub j (List.mem_cons_of_mem _ hj)
      rcases List.mem_cons.mp hr with rfl | hr
      · have hfound : ∃ ev, st.events.find? (fun e => e.id == i) = some ev := by
          have hin := hsub i (List.mem_cons_self i rest)
          rcases List.mem_map.mp hin with ⟨ev, hev, hid⟩
          have : (st.events.find? (fun e => e.id == i)).isSome = true := by
            rw [List.find?_isSome]
            exact ⟨ev, hev, by simp [hid]⟩
          exact Option.isSome_iff_exists.mp this
        rcases hfound with ⟨ev, hfind⟩
        have hid : ev.id = i := by
          have := List.find?_some hfind
          simpa using this
        have hupd := find_update_self st.events i
          (finalizeEvent ev st.now (attemptResult st ev))
          ((finalizeEvent_id ev st.now _).trans hid) ev hfind
        show ((((processOne st i).events.find? (fun e => e.id == i)).map
          DomainEvent.status).getD .pending = .processed ∨ _)
        rw [processOne_events_some st i ev hfind, hupd]
        cases hres : attemptResult st ev with
        | none => exact Or.inl rfl
        | some m => exact Or.inr rfl
      · exact hstep r hr

/-- Splitting a result list into processed and failed entries accounts for
every entry when each entry is one of the two. -/
theorem count_split (l : List (Nat × EventStatus))
    (h : ∀ r ∈ l, r.2 = .processed ∨ r.2 = .failed) :
    (l.filter (fun r => r.2 == .processed)).length +
      (l.filter (fun r => r.2 == .failed)).length = l.length := by
  induction l with
  | nil => rfl
  | cons a rest ih =>
      have hrest := ih (fun r hr => h r (List.mem_cons_of_mem _ hr))
      rcases h a (List.mem_cons_self a rest) with ha | ha <;>
        simp [List.filter_cons, ha] <;> omega

/-- C8: each selected event is processed independently and accounted for —
the per-event results list has exactly one entry per selected event in
selection order, every entry ends processed or failed (a failure never aborts
the batch), and `processed_count + failed_count` equals the number of
selected events. -/
theorem sweep_isolation (st : Store) (limit maxA : Nat) (inc : Bool) :
    ((process_pending st limit inc maxA).2.2.2).map Prod.fst =
      (selectCandidates st limit inc maxA).map DomainEvent.id ∧
    (∀ r ∈ (process_pending st limit inc maxA).2.2.2,
       r.2 = .processed ∨ r.2 = .failed) ∧
    (process_pending st limit inc maxA).2.1 +
      (process_pending st limit inc maxA).2.2.1 =
      ((process_pending st limit inc maxA).2.2.2).length := by
  have hstat : ∀ r ∈ (process_pending st limit inc maxA).2.2.2,
      r.2 = .processed ∨ r.2 = .failed := by
    refine processList_results_status st _ ?_
    intro i hi
    rcases List.mem_map.mp hi with ⟨ev, hev, hid⟩
    have h1 : ev ∈ (st.events.filter (isCandidate inc maxA)).mergeSort occurredLE :=
      List.take_subset _ _ hev
    have h2 : ev ∈ st.events := List.mem_of_mem_filter ((List.mem_mergeSort).mp h1)
    exact hid ▸ List.mem_map_of_mem DomainEvent.id h2
  exact ⟨processList_results_fst st _, hstat, count_split _ hstat⟩

/-- C1: with the rule store holding one active rule on `triage.assessed`
whose condition requires `risk_level ∈ [High, Critical]` and whose action is
`create_appointment` with a reason template containing `{risk_level}`,
emitting a `triage.assessed` event whose payload carries a stored patient `P`
and `risk_level = "Critical"` creates exactly one new appointment for `P`
with the reason rendered (placeholder replaced by `Critical`), initial status
`scheduled`, and stores the emitted event as processed with one attempt. -/
theorem emit_high_risk_followup (st : Store) (r : WorkflowRule)
    (src : String) (P : Int) (a b : String)
    (hrules : st.rules = [r])
    (hactive : r.active = true)
    (het : r.event_type = "triage.assessed")
    (hcond : r.condition = Cond.all [Cond.clause "risk_level" Op.opIn
      (Value.list [Scalar.str "High", Scalar.str "Critical"])])
    (hat : r.action_type = ActionType.create_appointment)
    (hreason : r.action_config.reason =
      [Tmpl.lit a, Tmpl.hole "risk_level", Tmpl.lit b])
    (hP : P ∈ st.patients)
    (hfresh : ∀ e ∈ st.events, e.id ≠ st.nextId) :
    (emit st "triage.assessed" src
        [("patient_id", Value.int P), ("risk_level", Value.str "Critical")]).appointments =
      st.appointments ++
        [{ patient := P, clinician_name := r.action_config.clinician_name,
           scheduled_at := (st.now : Int) + r.action_config.scheduled_in_hours,
           reason := a ++ "Critical" ++ b, status := "scheduled" }] ∧
    (emit st "triage.assessed" src
        [("patient_id", Value.int P), ("risk_level", Value.str "Critical")]).events =
      st.events ++
        [{ id := st.nextId, event_type := "triage.assessed", source := src,
           payload := [("patient_id", Value.int P), ("risk_level", Value.str "Critical")],
           status := .processed, attempts := 1, error_message := "",
           occurred_at := st.now, processed_at := some st.now }] := by
  set p : Payload :=
    [("patient_id", Value.int P), ("risk_level", Value.str "Critical")] with hp
  set newEv : DomainEvent := mkEvent st.nextId "triage.assessed" src p st.now
    with hnewEv
  set st2 : Store :=
    { st with events := st.events ++ [newEv], nextId := st.nextId + 1 } with hst2
  have hemit : emit st "triage.assessed" src p = processOne st2 st.nextId := rfl
  have hpred : ((fun e : DomainEvent => e.id == st.nextId) newEv) = true := by
    show (newEv.id == st.nextId) = true
    simp [hnewEv, mkEvent]
  have hfind : st2.events.find? (fun e => e.id == st.nextId) = some newEv := by
    show (st.events ++ [newEv]).find? (fun e => e.id == st.nextId) = some newEv
    rw [List.find?_append]
    have hnone : st.events.find? (fun e => e.id == st.nextId) = none := by
      rw [List.find?_eq_none]
      intro e he
      simpa using hfresh e he
    rw [hnone]
    show List.find? (fun e => e.id == st.nextId) [newEv] = some newEv
    exact List.find?_cons_of_pos _ hpred
  have heval : evaluate r.condition p = true := by
    rw [hcond]
    show evalAllChildren _ p = true
    simp [evalAllChildren, evaluate, evalClause, lookupField, hp, Value.str]
  have hfired : firedRules st2.rules newEv = [r] := by
    show firedRules st.rules newEv = [r]
    rw [hrules]
    unfold firedRules lookupRules
    have hfilter : [r].filter
        (fun ru => ru.active && ru.event_type == newEv.event_type) = [r] := by
      have : (r.active && r.event_type == newEv.event_type) = true := by
        rw [hactive, het]
        rfl
      simp [List.filter, this]
    rw [hfilter, List.mergeSort_singleton]
    have : evaluate r.condition newEv.payload = true := heval
    simp [List.filter, this]
  have hsubject : resolveSubject p st2.patients = .ok P := by
    unfold resolveSubject
    have hcontains : st2.patients.contains P = true := by
      show st.patients.contains P = true
      simpa using hP
    show (match lookupField p "patient_id" with
      | some (.scalar (.int n)) =>
          if st2.patients.contains n then Except.ok n
          else Except.error DispatchError.unknownSubject
      | _ => Except.error DispatchError.unknownSubject) = Except.ok P
    have hlk : lookupField p "patient_id" = some (Value.int P) := rfl
    rw [hlk]
    show (if st2.patients.contains P then Except.ok P
      else Except.error DispatchError.unknownSubject) = Except.ok P
    rw [hcontains]
    rfl
  have hrender : renderTemplate r.action_config.reason p =
      .ok (a ++ ("Critical" ++ (b ++ ""))) := by
    rw [hreason]
    rfl
  have hdisp : dispatch r p st2 = .ok (.appointment
      { patient := P, clinician_name := r.action_config.clinician_name,
        scheduled_at := (st.now : Int) + r.action_config.scheduled_in_hours,
        reason := a ++ ("Critical" ++ (b ++ "")), status := "scheduled" }) := by
    unfold dispatch
    rw [hsubject, hat, hrender]
  have hrun : runRules st2 p [r] =
      ({ st2 with appointments := st2.appointments ++
          [{ patient := P, clinician_name := r.action_config.clinician_name,
             scheduled_at := (st.now : Int) + r.action_config.scheduled_in_hours,
             reason := a ++ ("Critical" ++ (b ++ "")), status := "scheduled" }] },
        []) := by
    unfold runRules
    rw [hdisp]
    rfl
  have hpayload : newEv.payload = p := rfl
  have herrs : attemptErrors st2 newEv = [] := by
    unfold attemptErrors
    rw [hpayload, hfired, hrun]
  have hres : attemptResult st2 newEv = none := by
    unfold attemptResult
    rw [herrs]
    rfl
  have hreasonEq : a ++ ("Critical" ++ (b ++ "")) = a ++ "Critical" ++ b := by
    simp [String.append_assoc]
  constructor
  · rw [hemit]
    unfold processOne
    rw [hfind]
    show (runRules st2 newEv.payload (firedRules st2.rules newEv)).1.appointments = _
    rw [hpayload, hfired, hrun, hreasonEq]
  · rw [hemit]
    unfold processOne
    rw [hfind]
    show ((runRules st2 newEv.payload (firedRules st2.rules newEv)).1.events.map
      (fun e => if e.id == st.nextId
        then finalizeEvent newEv st2.now (attemptResult st2 newEv) else e)) = _
    rw [hpayload, hfired, hrun, hres]
    show ((st.events ++ [newEv]).map
      (fun e => if e.id == st.nextId then finalizeEvent newEv st2.now none else e)) = _
    rw [List.map_append]
    have hleft : st.events.map
        (fun e => if e.id == st.nextId then finalizeEvent newEv st2.now none else e) =
        st.events := by
      rw [show st.events.map
          (fun e => if e.id == st.nextId then finalizeEvent newEv st2.now none else e) =
          st.events.map id from List.map_congr_left ?_, List.map_id]
      intro e he
      have : (e.id == st.nextId) = false := by simpa using hfresh e he
      simp [this]
    rw [hleft]
    simp only [List.map_cons, List.map_nil, hpred, if_true]
    show st.events ++ [finalizeEvent newEv st2.now none] = _
    rfl

/-- C1 witness: emitting a critical triage assessment against the concrete
sample store creates exactly the rendered follow-up appointment. -/
theorem emit_high_risk_followup_witness :
    (emit wTriageStore "triage.assessed" "triage.assess"
        [("patient_id", Value.int 2), ("risk_level", Value.str "Critical")]).appointments =
      wTriageStore.appointments ++
        [{ patient := 2,
           clinician_name := wFollowupRule.action_config.clinician_name,
           scheduled_at := (wTriageStore.now : Int) +
             wFollowupRule.action_config.scheduled_in_hours,
           reason := "Follow-up for " ++ "Critical" ++ " risk",
           status := "scheduled" }] :=
  (emit_high_risk_followup wTriageStore wFollowupRule "triage.assess" 2
    "Follow-up for " " risk" rfl rfl rfl rfl rfl rfl (by decide)
    (by intro e he; cases he)).1

end CareFlow
